import Mathlib

set_option maxRecDepth 8000

/- Formal model of the Atlas streaming chat relay.

   This file is a shallow embedding of the two core routines of the
   repository:

   * the proxy retry loop of supabase/functions/chat/index.ts
     (bounded retry on 429, one-time model downgrade on 402,
     pass-through on success), and

   * the client streaming drivers streamChat and streamAssistantChat of
     src/components/ChatInterface.tsx (retry loop, incremental SSE
     line decoding, JSON delta extraction and transcript folding).

   Machine-level aspects are modelled as follows: HTTP responses are
   records of status, headers and body; the upstream network is a
   function from attempt index to response; JavaScript string coercion
   of the retry-after header is modelled by an Option Int field where
   none stands for an absent or non-numeric (NaN) header; byte chunks
   are lists of characters (the inputs of interest are ASCII). -/

/-- Message roles used by the chat transcripts. -/
inductive Role where
  | system
  | user
  | assistant
deriving DecidableEq

/-- One transcript entry: a role-tagged message. -/
structure ChatMsg where
  role : Role
  content : String
deriving DecidableEq

/-- JSON values, the result type of the client's JSON.parse on one data line. -/
inductive Json where
  | null
  | bool (b : Bool)
  | num (n : Int)
  | str (s : String)
  | arr (elems : List Json)
  | obj (fields : List (String × Json))

/-- Opening brace character, written numerically. -/
def lbrace : Char := Char.ofNat 123

/-- Closing brace character, written numerically. -/
def rbrace : Char := Char.ofNat 125

/-- JSON inter-token whitespace. -/
def isJsonWs (c : Char) : Bool := c == ' ' || c == '\t' || c == '\n' || c == '\r'

/-- Drop leading JSON whitespace. -/
def skipWs : List Char → List Char
  | [] => []
  | c :: cs => if isJsonWs c then skipWs cs else c :: cs

/-- Value of a hexadecimal digit. -/
def hexVal (c : Char) : Option Nat :=
  if decide ('0' ≤ c) && decide (c ≤ '9') then some (c.toNat - 48)
  else if decide ('a' ≤ c) && decide (c ≤ 'f') then some (c.toNat - 87)
  else if decide ('A' ≤ c) && decide (c ≤ 'F') then some (c.toNat - 55)
  else none

/-- Decimal digit test. -/
def isDigit (c : Char) : Bool := decide ('0' ≤ c) && decide (c ≤ '9')

/-- Body of a JSON string literal, after the opening quote; fails on an
    unterminated string, which is how a data line split mid-string is
    rejected. -/
def parseStrBody : Nat → List Char → Option (List Char × List Char)
  | 0, _ => none
  | _ + 1, [] => none
  | fuel + 1, c :: cs =>
    if c == '"' then some ([], cs)
    else if c == '\\' then
      match cs with
      | [] => none
      | e :: cs1 =>
        let dec : Option Char :=
          if e == '"' then some '"'
          else if e == '\\' then some '\\'
          else if e == '/' then some '/'
          else if e == 'n' then some '\n'
          else if e == 't' then some '\t'
          else if e == 'r' then some '\r'
          else if e == 'b' then some (Char.ofNat 8)
          else if e == 'f' then some (Char.ofNat 12)
          else none
        match dec with
        | some d =>
          match parseStrBody fuel cs1 with
          | some (s, rest) => some (d :: s, rest)
          | none => none
        | none =>
          if e == 'u' then
            match cs1 with
            | h1 :: h2 :: h3 :: h4 :: cs2 =>
              match hexVal h1, hexVal h2, hexVal h3, hexVal h4 with
              | some a, some b, some c2, some d2 =>
                match parseStrBody fuel cs2 with
                | some (s, rest) => some (Char.ofNat (((a * 16 + b) * 16 + c2) * 16 + d2) :: s, rest)
                | none => none
              | _, _, _, _ => none
            | _ => none
          else none
    else
      match parseStrBody fuel cs with
      | some (s, rest) => some (c :: s, rest)
      | none => none

/-- Take a maximal run of decimal digits. -/
def takeDigits : List Char → List Char × List Char
  | [] => ([], [])
  | c :: cs =>
    if isDigit c then
      match takeDigits cs with
      | (ds, rest) => (c :: ds, rest)
    else ([], c :: cs)

/-- Numeric value of a digit run. -/
def digitsToNat : List Char → Nat → Nat
  | [], acc => acc
  | c :: cs, acc => digitsToNat cs (acc * 10 + (c.toNat - 48))

/-- Consume a well-formed exponent part; a malformed one is left in
    place so that the surrounding context rejects it. -/
def expTail (cs : List Char) : List Char :=
  match cs with
  | c :: r1 =>
    if c == 'e' || c == 'E' then
      let r2 := match r1 with
        | '+' :: r => r
        | '-' :: r => r
        | r => r
      match takeDigits r2 with
      | ([], _) => cs
      | (_, r3) => r3
    else cs
  | [] => []

/-- Parsing modes of the fuelled JSON parsing function. -/
inductive PMode where
  | val
  | arrTail
  | objTail
  | pair

/-- Result alternatives of the fuelled JSON parsing function. -/
inductive PRes where
  | v (j : Json)
  | vs (l : List Json)
  | fs (l : List (String × Json))
  | pr (p : String × Json)

/-- Parse a JSON number (integer value retained; fraction and exponent
    are consumed syntactically). -/
def parseNum (cs : List Char) : Option (PRes × List Char) :=
  let p : Bool × List Char := match cs with
    | '-' :: rest => (true, rest)
    | _ => (false, cs)
  match takeDigits p.2 with
  | ([], _) => none
  | (ds, rest) =>
    let rest1 := match rest with
      | '.' :: r2 =>
        match takeDigits r2 with
        | ([], _) => '.' :: r2
        | (_, r3) => r3
      | r => r
    let rest2 := expTail rest1
    let n : Int := Int.ofNat (digitsToNat ds 0)
    some (PRes.v (Json.num (if p.1 then -n else n)), rest2)

/-- Fuelled recursive-descent JSON parser; the modes stand for the
    mutually recursive productions value, array tail, object tail and
    key-value pair. -/
def parseF : Nat → PMode → List Char → Option (PRes × List Char)
  | 0, _, _ => none
  | fuel + 1, PMode.val, cs =>
    match skipWs cs with
    | [] => none
    | c :: cs1 =>
      if c == '"' then
        match parseStrBody (cs1.length + 1) cs1 with
        | some (s, rest) => some (PRes.v (Json.str (String.mk s)), rest)
        | none => none
      else if c == 't' then
        match cs1 with
        | 'r' :: 'u' :: 'e' :: rest => some (PRes.v (Json.bool true), rest)
        | _ => none
      else if c == 'f' then
        match cs1 with
        | 'a' :: 'l' :: 's' :: 'e' :: rest => some (PRes.v (Json.bool false), rest)
        | _ => none
      else if c == 'n' then
        match cs1 with
        | 'u' :: 'l' :: 'l' :: rest => some (PRes.v Json.null, rest)
        | _ => none
      else if c == '[' then
        match skipWs cs1 with
        | ']' :: rest => some (PRes.v (Json.arr []), rest)
        | cs2 =>
          match parseF fuel PMode.val cs2 with
          | some (PRes.v j, rest) =>
            match parseF fuel PMode.arrTail rest with
            | some (PRes.vs js, rest2) => some (PRes.v (Json.arr (j :: js)), rest2)
            | _ => none
          | _ => none
      else if c == lbrace then
        match skipWs cs1 with
        | [] => none
        | d :: rest1 =>
          if d == rbrace then some (PRes.v (Json.obj []), rest1)
          else
            match parseF fuel PMode.pair (d :: rest1) with
            | some (PRes.pr p, rest) =>
              match parseF fuel PMode.objTail rest with
              | some (PRes.fs ps, rest2) => some (PRes.v (Json.obj (p :: ps)), rest2)
              | _ => none
            | _ => none
      else if c == '-' || isDigit c then parseNum (c :: cs1)
      else none
  | fuel + 1, PMode.arrTail, cs =>
    match skipWs cs with
    | [] => none
    | c :: cs1 =>
      if c == ']' then some (PRes.vs [], cs1)
      else if c == ',' then
        match parseF fuel PMode.val cs1 with
        | some (PRes.v j, rest) =>
          match parseF fuel PMode.arrTail rest with
          | some (PRes.vs js, rest2) => some (PRes.vs (j :: js), rest2)
          | _ => none
        | _ => none
      else none
  | fuel + 1, PMode.objTail, cs =>
    match skipWs cs with
    | [] => none
    | c :: cs1 =>
      if c == rbrace then some (PRes.fs [], cs1)
      else if c == ',' then
        match parseF fuel PMode.pair cs1 with
        | some (PRes.pr p, rest) =>
          match parseF fuel PMode.objTail rest with
          | some (PRes.fs ps, rest2) => some (PRes.fs (p :: ps), rest2)
          | _ => none
        | _ => none
      else none
  | fuel + 1, PMode.pair, cs =>
    match skipWs cs with
    | [] => none
    | c :: cs1 =>
      if c == '"' then
        match parseStrBody (cs1.length + 1) cs1 with
        | some (s, rest) =>
          match skipWs rest with
          | [] => none
          | d :: rest1 =>
            if d == ':' then
              match parseF fuel PMode.val rest1 with
              | some (PRes.v j, rest2) => some (PRes.pr (String.mk s, j), rest2)
              | _ => none
            else none
        | none => none
      else none

/-- JSON.parse on a character sequence: one value followed only by
    whitespace, otherwise failure. -/
def jsonParse (cs : List Char) : Option Json :=
  match parseF (3 * cs.length + 9) PMode.val cs with
  | some (PRes.v j, rest) => if skipWs rest == [] then some j else none
  | _ => none

/-- Property access on a parsed JSON object; on duplicate keys the last
    occurrence wins, matching JSON.parse object construction. -/
def Json.getField : Json → String → Option Json
  | Json.obj fs, k => fs.foldl (fun acc p => if p.1 == k then some p.2 else acc) none
  | _, _ => none

/-- Embeds the access chain choices?.[0]?.delta?.content together with
    the truthiness test if (content), restricted to string payloads
    (the source casts the field as string). -/
def extractContent (j : Json) : Option String :=
  match j.getField "choices" with
  | some (Json.arr (c0 :: _)) =>
    match c0.getField "delta" with
    | some d =>
      match d.getField "content" with
      | some (Json.str s) => if s == "" then none else some s
      | _ => none
    | none => none
  | _ => none

/-- Whitespace stripped by the JavaScript string trim method (ASCII part). -/
def isTrimWs (c : Char) : Bool :=
  c == ' ' || c == '\t' || c == '\n' || c == '\r' || c == Char.ofNat 11 || c == Char.ofNat 12

/-- Drop leading trim whitespace. -/
def trimLeading : List Char → List Char
  | [] => []
  | c :: cs => if isTrimWs c then trimLeading cs else c :: cs

/-- Both-sided trim, as in the source's line.trim() and jsonStr.trim(). -/
def trimBoth (l : List Char) : List Char :=
  (trimLeading (trimLeading l).reverse).reverse

/-- Split the buffer at the first line feed: embeds
    textBuffer.indexOf of the newline followed by the two slice calls;
    none when no newline is present. -/
def splitLine : List Char → Option (List Char × List Char)
  | [] => none
  | c :: cs =>
    if c == '\n' then some ([], cs)
    else
      match splitLine cs with
      | some (l, r) => some (c :: l, r)
      | none => none

/-- Strip one trailing carriage return, as in the source's
    endsWith check followed by slice. -/
def stripCR (l : List Char) : List Char :=
  if l.getLast? == some '\r' then l.dropLast else l

/-- Leading-sequence test, embedding String.startsWith. -/
def isPre : List Char → List Char → Bool
  | [], _ => true
  | _ :: _, [] => false
  | p :: ps, c :: cs => p == c && isPre ps cs

/-- Substring test, embedding String.includes. -/
def hasInfix (needle : List Char) : List Char → Bool
  | [] => isPre needle []
  | c :: cs => isPre needle (c :: cs) || hasInfix needle cs

/-- The SSE field marker the decoder recognises. -/
def dataPre : List Char := ['d', 'a', 't', 'a', ':', ' ']

/-- The stream-termination sentinel. -/
def doneSentinel : List Char := ['[', 'D', 'O', 'N', 'E', ']']

/-- Index-passing map over transcript entries, embedding the
    JavaScript Array.prototype.map callback with its index argument. -/
def jsMapIdxFrom (f : Nat → ChatMsg → ChatMsg) (k : Nat) : List ChatMsg → List ChatMsg
  | [] => []
  | a :: as_ => f k a :: jsMapIdxFrom f (k + 1) as_

/-- Transcript folder of streamChat (ChatInterface.tsx lines 132-138):
    replace the content of a trailing assistant entry in place,
    otherwise append a fresh assistant entry. -/
def applyDelta (prev : List ChatMsg) (acc : String) : List ChatMsg :=
  match prev.getLast? with
  | some last =>
    if last.role = Role.assistant then
      jsMapIdxFrom (fun i m => if i = prev.length - 1 then { m with content := acc } else m) 0 prev
    else prev ++ [⟨Role.assistant, acc⟩]
  | none => prev ++ [⟨Role.assistant, acc⟩]

/-- Transcript folder of streamAssistantChat (ChatInterface.tsx lines
    272-278); the source duplicates the streamChat folder verbatim. -/
def applyDeltaAssistant (prev : List ChatMsg) (acc : String) : List ChatMsg :=
  match prev.getLast? with
  | some last =>
    if last.role = Role.assistant then
      jsMapIdxFrom (fun i m => if i = prev.length - 1 then { m with content := acc } else m) 0 prev
    else prev ++ [⟨Role.assistant, acc⟩]
  | none => prev ++ [⟨Role.assistant, acc⟩]

/-- Whether the transcript's final entry is absent or not an assistant
    entry. -/
def lastNotAssistant (t : List ChatMsg) : Bool :=
  match t.getLast? with
  | some m => !(m.role = Role.assistant : Bool)
  | none => true

/-- Whether the transcript ends in two adjacent assistant entries. -/
def twoTrailAsst (l : List ChatMsg) : Bool :=
  match l.getLast?, l.dropLast.getLast? with
  | some m2, some m1 => (m2.role = Role.assistant : Bool) && (m1.role = Role.assistant : Bool)
  | _, _ => false

/-- State of the incremental SSE decoder: the pending text buffer, the
    [DONE] flag, the running assistant accumulator, the transcript it
    folds into, and a count of transcript updates performed. -/
structure DecodeState where
  textBuffer : List Char
  streamDone : Bool
  assistantContent : String
  transcript : List ChatMsg
  updates : Nat
deriving DecidableEq

/-- One round of the inner line-extraction loop (ChatInterface.tsx
    lines 116-144): extract newline-terminated lines, skip comments and
    blanks, honour the [DONE] sentinel, fold parsed deltas, and on a
    JSON parse failure push the whole line plus newline back onto the
    front of the buffer and stop. Fuel bounds the iteration count; each
    iteration consumes at least the newline, so buffer length suffices. -/
def drainBuffer (fold : List ChatMsg → String → List ChatMsg) :
    Nat → DecodeState → DecodeState
  | 0, st => st
  | fuel + 1, st =>
    match splitLine st.textBuffer with
    | none => st
    | some (rawLine, rest) =>
      let line := stripCR rawLine
      let st1 : DecodeState := { st with textBuffer := rest }
      if isPre [':'] line || trimBoth line == [] then drainBuffer fold fuel st1
      else if !(isPre dataPre line) then drainBuffer fold fuel st1
      else
        let jsonStr := trimBoth (line.drop 6)
        if jsonStr == doneSentinel then { st1 with streamDone := true }
        else
          match jsonParse jsonStr with
          | some parsed =>
            match extractContent parsed with
            | some c =>
              let acc := st1.assistantContent ++ c
              drainBuffer fold fuel
                { st1 with
                  assistantContent := acc
                  transcript := fold st1.transcript acc
                  updates := st1.updates + 1 }
            | none => drainBuffer fold fuel st1
          | none => { st1 with textBuffer := line ++ '\n' :: rest }

/-- Feed one decoded chunk to the decoder: append to the pending buffer
    and run the line-extraction loop. -/
def processChunk (fold : List ChatMsg → String → List ChatMsg)
    (st : DecodeState) (chunk : List Char) : DecodeState :=
  let st1 : DecodeState := { st with textBuffer := st.textBuffer ++ chunk }
  drainBuffer fold (st1.textBuffer.length + 1) st1

/-- The outer read loop over the body's chunks: reading stops at
    end-of-body or once the [DONE] sentinel has been observed. -/
def feedChunks (fold : List ChatMsg → String → List ChatMsg)
    (st : DecodeState) : List (List Char) → DecodeState
  | [] => st
  | c :: cs =>
    if st.streamDone then st
    else feedChunks fold (processChunk fold st c) cs

/-- Fresh decoder state over a given transcript. -/
def initDecode (t : List ChatMsg) : DecodeState := ⟨[], false, "", t, 0⟩

/-- First chunk of the split-JSON example: a data line cut mid-string,
    with no newline. -/
def c4chunk1 : String := "data: \x7b\"choices\":[\x7b\"delta\":\x7b\"con"

/-- Second chunk of the split-JSON example: the rest of the data line
    and its newline. -/
def c4chunk2 : String := "tent\":\"hi\"\x7d\x7d]\x7d\n"

/-- First complete data line of the two-delta example. -/
def c7line1 : String := "data: \x7b\"choices\":[\x7b\"delta\":\x7b\"content\":\"He\"\x7d\x7d]\x7d\n"

/-- Second complete data line of the two-delta example. -/
def c7line2 : String := "data: \x7b\"choices\":[\x7b\"delta\":\x7b\"content\":\"llo\"\x7d\x7d]\x7d\n"

/-- The terminating sentinel line. -/
def doneLine : String := "data: [DONE]\n"

/-- One upstream HTTP response as seen by the proxy: the status code,
    the numeric coercion of the retry-after header (none stands for an
    absent header or one whose JavaScript Number coercion is NaN; some v
    for a numeric header of value v, so that the source's
    Number(h) || fallback reads as a match on this field with the zero
    case falling through to the fallback), and the body text. -/
structure UpstreamResp where
  status : Nat
  retryAfter : Option Int
  body : String
deriving DecidableEq

/-- Response.ok of the fetch API: a status in the 2xx range. -/
def UpstreamResp.isOk (r : UpstreamResp) : Bool :=
  decide (200 ≤ r.status) && decide (r.status < 300)

/-- The primary model identifier. -/
def defaultModel : String := "google/gemini-2.5-flash"

/-- The cheaper fallback model identifier. -/
def liteModel : String := "google/gemini-2.5-flash-lite"

/-- The proxy's fixed attempt budget. -/
def maxRetries : Nat := 3

/-- A response returned by the proxy to its caller: status, the
    Content-Type header when one is set, the x-model-used header when
    one is set, and the body. -/
structure ProxyResponse where
  status : Nat
  contentType : Option String
  xModelUsed : Option String
  body : String
deriving DecidableEq

/-- JSON error body helper, embedding JSON.stringify of an error record. -/
def jsonErrBody (msg : String) : String := "\x7b\"error\":\"" ++ msg ++ "\"\x7d"

/-- Terminal response of the exhausted-retries path (index.ts lines 77-80). -/
def rateLimitExhausted : ProxyResponse :=
  ⟨429, some "application/json", none, jsonErrBody "Rate limits exceeded, please try again shortly."⟩

/-- Terminal response of the already-downgraded quota path (index.ts lines 61-66). -/
def paymentRequired : ProxyResponse :=
  ⟨402, some "application/json", none, jsonErrBody "Payment required. Please add credits to your Lovable AI workspace."⟩

/-- Terminal response of the generic gateway-error path (index.ts lines 68-73). -/
def gatewayError : ProxyResponse :=
  ⟨500, some "application/json", none, jsonErrBody "AI gateway error"⟩

/-- Terminal response of the missing-credential configuration check as
    converted by the top-level catch (index.ts lines 14 and 81-87). -/
def configError : ProxyResponse :=
  ⟨500, some "application/json", none, jsonErrBody "LOVABLE_API_KEY is not configured"⟩

/-- Backoff delay on a rate-limited attempt (index.ts line 49):
    Number(retry-after) || (attempt + 1) * 800, with the Option field
    standing for the Number coercion; both an absent/NaN header and a
    numeric header of value 0 are falsy and take the fallback. -/
def retryAfterDelay (h : Option Int) (attempt : Nat) : Int :=
  match h with
  | some v => if v = 0 then ((attempt : Int) + 1) * 800 else v
  | none => ((attempt : Int) + 1) * 800

/-- Observable outcome of one proxy invocation: the response returned
    to the caller, the model sent on each upstream fetch in order, the
    backoff delays slept in order, and the number of model downgrades
    performed. -/
structure ProxyRun where
  resp : ProxyResponse
  models : List String
  sleeps : List Int
  downgrades : Nat
deriving DecidableEq

/-- The proxy retry loop (index.ts lines 20-74 plus the
    exhausted-retries return at lines 77-80), with the upstream network
    abstracted as a function from attempt index to response. The fuel
    argument counts the remaining attempt slots, so the initial call
    uses maxRetries; the loop variable attempt advances by one per
    iteration exactly as the for loop's counter does. -/
def chatLoop (upstream : Nat → UpstreamResp) :
    Nat → Nat → String → Bool → ProxyRun
  | 0, _, _, _ => ⟨rateLimitExhausted, [], [], 0⟩
  | fuel + 1, attempt, model, triedLite =>
    let r := upstream attempt
    if r.isOk then
      ⟨⟨200, some "text/event-stream", some model, r.body⟩, [model], [], 0⟩
    else if r.status = 429 then
      let rest := chatLoop upstream fuel (attempt + 1) model triedLite
      ⟨rest.resp, model :: rest.models, retryAfterDelay r.retryAfter attempt :: rest.sleeps,
        rest.downgrades⟩
    else if r.status = 402 && !triedLite then
      let rest := chatLoop upstream fuel (attempt + 1) liteModel true
      ⟨rest.resp, model :: rest.models, rest.sleeps, rest.downgrades + 1⟩
    else if r.status = 402 then ⟨paymentRequired, [model], [], 0⟩
    else ⟨gatewayError, [model], [], 0⟩

/-- One full proxy invocation from the initial state: primary model,
    downgrade not yet tried, attempt counter at zero. -/
def chatRun (upstream : Nat → UpstreamResp) : ProxyRun :=
  chatLoop upstream maxRetries 0 defaultModel false

/-- Truthiness of the missing-credential check !LOVABLE_API_KEY:
    an absent variable or an empty string counts as missing. -/
def keyAbsent : Option String → Bool
  | none => true
  | some s => s.isEmpty

/-- The serve handler (index.ts lines 8-88): preflight short-circuit,
    inbound JSON parse, credential check, then the retry loop; a parse
    or configuration exception is converted by the top-level catch into
    a 500 JSON error carrying the exception's message. -/
def chatHandler (method : String) (bodyParse : Except String (List ChatMsg))
    (apiKey : Option String) (upstream : Nat → UpstreamResp) : ProxyRun :=
  if method = "OPTIONS" then ⟨⟨200, none, none, ""⟩, [], [], 0⟩
  else
    match bodyParse with
    | Except.error e => ⟨⟨500, some "application/json", none, jsonErrBody e⟩, [], [], 0⟩
    | Except.ok _ =>
      match apiKey with
      | none => ⟨configError, [], [], 0⟩
      | some k => if k.isEmpty then ⟨configError, [], [], 0⟩ else chatRun upstream

/-- One HTTP response as seen by the client driver. -/
structure HttpResp where
  status : Nat
  xModelUsed : Option String
  hasBody : Bool
  chunks : List (List Char)
deriving DecidableEq

/-- Outcome of one client fetch: a network failure (the promise
    rejects) or a response. -/
inductive FetchResult where
  | fail
  | success (r : HttpResp)
deriving DecidableEq

/-- Response.ok on the client side. -/
def httpOk (s : Nat) : Bool := decide (200 ≤ s) && decide (s < 300)

/-- A toast notification: its title and whether it uses the destructive
    variant. -/
structure Toast where
  title : String
  destructive : Bool
deriving DecidableEq

/-- Transient rate-limited toast of the primary driver. -/
def rlTransientToast : Toast := ⟨"Rate limited", false⟩

/-- Terminal rate-limit toast of the primary driver. -/
def rlTerminalToast : Toast := ⟨"Rate limit exceeded", true⟩

/-- Out-of-credits toast of the primary driver. -/
def creditsToast : Toast := ⟨"Out of credits", true⟩

/-- Terminal transport-failure toast of the primary driver. -/
def genericErrToast : Toast := ⟨"Error", true⟩

/-- Economy-mode informational toast. -/
def economyToast : Toast := ⟨"Economy mode", false⟩

/-- Observable outcome of one streamChat invocation: the final
    transcript and loading flag, the toasts surfaced in order, the
    backoff delays slept in order, and the number of fetches issued. -/
structure ClientRun where
  transcript : List ChatMsg
  isLoading : Bool
  toasts : List Toast
  sleeps : List Nat
  fetches : Nat
deriving DecidableEq

/-- The retry loop of streamChat (ChatInterface.tsx lines 58-159), with
    the relay abstracted as a function from attempt index to fetch
    outcome. Fuel counts the remaining loop iterations; every path
    through the loop body increments attempt before any bound check, so
    the while condition itself is never the exit taken from the initial
    state and the fuel-exhausted base case is unreachable from it. -/
def streamChatLoop (responses : Nat → FetchResult) :
    Nat → Nat → List ChatMsg → ClientRun
  | 0, _, t => ⟨t, true, [], [], 0⟩
  | fuel + 1, attempt, t =>
    match responses attempt with
    | FetchResult.fail =>
      if attempt + 1 ≥ maxRetries then ⟨t, false, [genericErrToast], [], 1⟩
      else
        let rest := streamChatLoop responses fuel (attempt + 1) t
        ⟨rest.transcript, rest.isLoading, rest.toasts, 500 * (attempt + 1) :: rest.sleeps,
          rest.fetches + 1⟩
    | FetchResult.success r =>
      if r.status = 429 then
        if attempt + 1 < maxRetries then
          let rest := streamChatLoop responses fuel (attempt + 1) t
          ⟨rest.transcript, rest.isLoading, rlTransientToast :: rest.toasts,
            700 * (attempt + 1) :: rest.sleeps, rest.fetches + 1⟩
        else ⟨t, false, [rlTerminalToast], [], 1⟩
      else if r.status = 402 then ⟨t, false, [creditsToast], [], 1⟩
      else if !httpOk r.status || !r.hasBody then
        if attempt + 1 ≥ maxRetries then ⟨t, false, [genericErrToast], [], 1⟩
        else
          let rest := streamChatLoop responses fuel (attempt + 1) t
          ⟨rest.transcript, rest.isLoading, rest.toasts, 500 * (attempt + 1) :: rest.sleeps,
            rest.fetches + 1⟩
      else
        let ecoToasts : List Toast :=
          match r.xModelUsed with
          | some m => if hasInfix "flash-lite".data m.data then [economyToast] else []
          | none => []
        let dst := feedChunks applyDelta (initDecode t) r.chunks
        ⟨dst.transcript, false, ecoToasts, [], 1⟩

/-- The primary conversation driver streamChat (ChatInterface.tsx lines
    49-160): append the user utterance, raise the loading flag, then run
    the bounded retry loop. -/
def streamChat (initial : List ChatMsg) (userMessage : String)
    (responses : Nat → FetchResult) : ClientRun :=
  streamChatLoop responses maxRetries 0 (initial ++ [⟨Role.user, userMessage⟩])

/-- The dynamically constructed system instruction of the auxiliary
    driver (ChatInterface.tsx line 210); an absent or empty active-tab
    URL falls back to the generic wording. -/
def systemPromptFor (activeTabUrl : Option String) : String :=
  "You are a helpful AI assistant that helps users navigate and understand websites. The user is currently viewing: "
    ++ (match activeTabUrl with
        | none => "a website"
        | some u => if u.isEmpty then "a website" else u)
    ++ ". Help them find information, explain features, and guide them through the site."

/-- Rate-limited toast of the auxiliary driver. -/
def assistRlToast : Toast := ⟨"Rate limited", true⟩

/-- Out-of-credits toast of the auxiliary driver. -/
def assistCreditsToast : Toast := ⟨"Out of credits", true⟩

/-- Failure toast of the auxiliary driver. -/
def assistErrToast : Toast := ⟨"Error", true⟩

/-- Observable outcome of one streamAssistantChat invocation; the
    sleeps field records backoff waits, of which the source performs
    none, and requestMessages records the message list sent to the
    relay. -/
structure AssistantRun where
  transcript : List ChatMsg
  isLoading : Bool
  toasts : List Toast
  sleeps : List Nat
  fetches : Nat
  requestMessages : List ChatMsg
deriving DecidableEq

/-- The auxiliary conversation driver streamAssistantChat
    (ChatInterface.tsx lines 209-293): build the contextual system
    prompt, append the user utterance to the auxiliary transcript, issue
    one fetch, and handle its outcome without any retry loop. As in the
    primary driver the relay is abstracted as a function from attempt
    index to fetch outcome; the source consults index 0 only. -/
def streamAssistantChat (activeTabUrl : Option String) (assistantMessages : List ChatMsg)
    (userMessage : String) (responses : Nat → FetchResult) : AssistantRun :=
  let reqMsgs : List ChatMsg :=
    ⟨Role.system, systemPromptFor activeTabUrl⟩ :: (assistantMessages ++ [⟨Role.user, userMessage⟩])
  let t : List ChatMsg := assistantMessages ++ [⟨Role.user, userMessage⟩]
  match responses 0 with
  | FetchResult.fail => ⟨t, false, [assistErrToast], [], 1, reqMsgs⟩
  | FetchResult.success r =>
    if r.status = 429 then ⟨t, false, [assistRlToast], [], 1, reqMsgs⟩
    else if r.status = 402 then ⟨t, false, [assistCreditsToast], [], 1, reqMsgs⟩
    else if !httpOk r.status || !r.hasBody then ⟨t, false, [assistErrToast], [], 1, reqMsgs⟩
    else
      let dst := feedChunks applyDeltaAssistant (initDecode t) r.chunks
      ⟨dst.transcript, false, [], [], 1, reqMsgs⟩

/-- Upstream that always answers 429 with a numeric retry-after header
    of value 0. -/
def uZeroRA : Nat → UpstreamResp := fun _ => ⟨429, some 0, ""⟩

/-- Upstream that answers 429 twice and then reports quota exhaustion. -/
def uLateQuota : Nat → UpstreamResp := fun i => if i < 2 then ⟨429, none, ""⟩ else ⟨402, none, ""⟩

/-- Upstream that succeeds immediately. -/
def uAllOk : Nat → UpstreamResp := fun _ => ⟨200, none, "event-bytes"⟩

/-- Upstream in a permanent server-error state, first variant. -/
def uErrA : Nat → UpstreamResp := fun _ => ⟨500, none, "boom-a"⟩

/-- Upstream in a permanent server-error state, second variant,
    differing from the first only in error status and body text. -/
def uErrB : Nat → UpstreamResp := fun _ => ⟨503, some 42, "boom-b"⟩

/-- Relay that answers every client fetch with a 429. -/
def relayAll429 : Nat → FetchResult := fun _ => FetchResult.success ⟨429, none, true, []⟩

/-- An upstream response that is neither OK nor rate-limited nor a
    quota failure: the statuses handled by the proxy's generic
    gateway-error branch. -/
def isOtherErr (r : UpstreamResp) : Bool :=
  !r.isOk && !(r.status == 429) && !(r.status == 402)

/-- Relay that answers the auxiliary driver's fetch with a 429. -/
def assistRelay429 : Nat → FetchResult := fun _ => FetchResult.success ⟨429, none, true, []⟩

/-- Upstream that reports quota exhaustion once and then a generic
    server error: the downgrade retry meets the gateway-error branch. -/
def uQuotaThenErr : Nat → UpstreamResp :=
  fun i => if i = 0 then ⟨402, none, ""⟩ else ⟨503, none, "boom"⟩

/-- Upstream that reports quota exhaustion, then a rate limit, then
    quota exhaustion again: the second quota response arrives two
    attempts after the downgrade. -/
def uQuotaSandwich : Nat → UpstreamResp :=
  fun i => if i = 1 then ⟨429, none, ""⟩ else ⟨402, none, ""⟩

theorem applyDeltaAssistant_eq : applyDeltaAssistant = applyDelta := rfl

theorem jsMapIdx_setLast (acc : String) :
    ∀ (l : List ChatMsg) (k n : Nat) (m : ChatMsg),
      l.getLast? = some m → n + 1 = k + l.length →
      jsMapIdxFrom (fun i mm => if i = n then { mm with content := acc } else mm) k l
        = l.dropLast ++ [⟨m.role, acc⟩] := by
  intro l
  induction l with
  | nil => intro k n m h hn; simp at h
  | cons a tail ih =>
    intro k n m h hn
    cases tail with
    | nil =>
      have hm : a = m := by simpa using h
      have hk : k = n := by simp at hn; omega
      subst hm; subst hk
      simp [jsMapIdxFrom]
    | cons b t =>
      have h2 : (b :: t).getLast? = some m := by
        simpa [List.getLast?_cons_cons] using h
      have hne : ¬ (k = n) := by simp at hn; omega
      have hrec := ih (k + 1) n m h2 (by simp at hn ⊢; omega)
      rw [jsMapIdxFrom]
      simp only [hne, if_false, hrec]
      simp [List.dropLast]

theorem applyDelta_replace (l : List ChatMsg) (m : ChatMsg) (acc : String)
    (hl : l.getLast? = some m) (hr : m.role = Role.assistant) :
    applyDelta l acc = l.dropLast ++ [⟨Role.assistant, acc⟩] := by
  have hlen : 1 ≤ l.length := by
    cases l with
    | nil => simp at hl
    | cons a t => simp
  have hmap := jsMapIdx_setLast acc l 0 (l.length - 1) m hl (by omega)
  simp only [applyDelta, hl]
  rw [if_pos hr, hmap, hr]

theorem applyDelta_append (l : List ChatMsg) (acc : String)
    (h : lastNotAssistant l = true) :
    applyDelta l acc = l ++ [⟨Role.assistant, acc⟩] := by
  unfold lastNotAssistant at h
  cases hl : l.getLast? with
  | none => simp only [applyDelta, hl]
  | some m =>
    rw [hl] at h
    simp at h
    simp only [applyDelta, hl]
    rw [if_neg h]

theorem twoTrail_applyDelta (l : List ChatMsg) (acc : String)
    (h : twoTrailAsst (applyDelta l acc) = true) : twoTrailAsst l = true := by
  cases hl : l.getLast? with
  | none =>
    have hln : l = [] := by
      cases l with
      | nil => rfl
      | cons a t => simp at hl
    subst hln
    simp [applyDelta, twoTrailAsst] at h
  | some m =>
    by_cases hr : m.role = Role.assistant
    · have he := applyDelta_replace l m acc hl hr
      rw [he] at h
      unfold twoTrailAsst at h ⊢
      rw [List.getLast?_concat, List.dropLast_concat] at h
      rw [hl]
      cases hd : l.dropLast.getLast? with
      | none => rw [hd] at h; simp at h
      | some m1 =>
        rw [hd] at h
        simp at h
        simp [hr, h]
    · have hna : lastNotAssistant l = true := by
        unfold lastNotAssistant
        rw [hl]
        simp [hr]
      have he := applyDelta_append l acc hna
      rw [he] at h
      unfold twoTrailAsst at h
      rw [List.getLast?_concat, List.dropLast_concat] at h
      rw [hl] at h
      simp [hr] at h

/-- C6: throughout decoding, both transcript folders preserve the
    trailing-assistant invariant: a trailing assistant entry is replaced
    in place (position and length preserved) with the updated
    accumulator, a new assistant entry is appended only when the last
    entry is not an assistant entry, and neither folder ever creates two
    adjacent trailing assistant entries. -/
theorem transcript_fold_invariant (prev : List ChatMsg) (acc : String) :
    (∀ m, prev.getLast? = some m → m.role = Role.assistant →
        applyDelta prev acc = prev.dropLast ++ [⟨Role.assistant, acc⟩] ∧
        applyDeltaAssistant prev acc = prev.dropLast ++ [⟨Role.assistant, acc⟩] ∧
        (applyDelta prev acc).length = prev.length) ∧
    (lastNotAssistant prev = true →
        applyDelta prev acc = prev ++ [⟨Role.assistant, acc⟩] ∧
        applyDeltaAssistant prev acc = prev ++ [⟨Role.assistant, acc⟩]) ∧
    (twoTrailAsst (applyDelta prev acc) = true → twoTrailAsst prev = true) ∧
    (twoTrailAsst (applyDeltaAssistant prev acc) = true → twoTrailAsst prev = true) := by
  refine ⟨?_, ?_, ?_, ?_⟩
  · intro m hm hr
    have he := applyDelta_replace prev m acc hm hr
    have hlen : 1 ≤ prev.length := by
      cases prev with
      | nil => simp at hm
      | cons a t => simp
    refine ⟨he, by rw [applyDeltaAssistant_eq]; exact he, ?_⟩
    rw [he]
    simp [List.length_dropLast]
    omega
  · intro hna
    have he := applyDelta_append prev acc hna
    exact ⟨he, by rw [applyDeltaAssistant_eq]; exact he⟩
  · exact twoTrail_applyDelta prev acc
  · rw [applyDeltaAssistant_eq]; exact twoTrail_applyDelta prev acc

theorem transcript_fold_invariant_w :
    applyDelta [⟨Role.assistant, "x"⟩] "y" = [⟨Role.assistant, "y"⟩] ∧
    applyDelta [⟨Role.user, "q"⟩] "y" = [⟨Role.user, "q"⟩, ⟨Role.assistant, "y"⟩] := by
  constructor
  · have h := (transcript_fold_invariant [⟨Role.assistant, "x"⟩] "y").1
      ⟨Role.assistant, "x"⟩ (by decide) rfl
    simpa using h.1
  · have h := (transcript_fold_invariant [⟨Role.user, "q"⟩] "y").2.1 (by decide)
    simpa using h.1

/-- C4 counterexample: on the first chunk of the split-JSON example no
    newline is present, so the line-extraction loop never runs and
    nothing is pushed back onto the pending buffer: after the chunk the
    buffer is exactly the raw chunk text and contains no newline,
    whereas the claimed push-back of the raw line plus a newline would
    have left a newline in the buffer; no transcript update occurs
    either. -/
theorem split_chunk_no_pushback :
    (processChunk applyDelta (initDecode []) c4chunk1.data).textBuffer = c4chunk1.data ∧
    ¬ ('\n' ∈ (processChunk applyDelta (initDecode []) c4chunk1.data).textBuffer) ∧
    (processChunk applyDelta (initDecode []) c4chunk1.data).updates = 0 ∧
    (processChunk applyDelta (initDecode []) c4chunk1.data).transcript = [] := by
  refine ⟨by decide, by decide, by decide, by decide⟩

/-- C4 (amended): feeding the decoder the two-chunk split-JSON sequence
    leaves the newline-less first chunk pending in the buffer (no line
    is extracted from it and the push-back path is not exercised), and
    the line completed by the second chunk produces exactly one
    transcript update whose accumulated content is hi; no decode error
    is surfaced and no second update occurs, and the whole line is
    consumed. -/
theorem split_chunk_single_update (t0 : List ChatMsg) :
    (feedChunks applyDelta (initDecode t0) [c4chunk1.data, c4chunk2.data]).updates = 1 ∧
    (feedChunks applyDelta (initDecode t0) [c4chunk1.data, c4chunk2.data]).assistantContent = "hi" ∧
    (feedChunks applyDelta (initDecode t0) [c4chunk1.data, c4chunk2.data]).transcript
      = applyDelta t0 "hi" ∧
    (feedChunks applyDelta (initDecode t0) [c4chunk1.data, c4chunk2.data]).streamDone = false ∧
    (feedChunks applyDelta (initDecode t0) [c4chunk1.data, c4chunk2.data]).textBuffer = [] := by
  exact ⟨rfl, rfl, rfl, rfl, rfl⟩

/-- C7: feeding the decoder the two complete delta lines He and llo and
    then the [DONE] line, starting from a transcript whose last entry is
    not an assistant entry, appends exactly one assistant entry whose
    final content is Hello, and the sentinel terminates stream
    processing. -/
theorem hello_stream_fold (t0 : List ChatMsg) (h : lastNotAssistant t0 = true) :
    (feedChunks applyDelta (initDecode t0) [c7line1.data, c7line2.data, doneLine.data]).transcript
      = t0 ++ [⟨Role.assistant, "Hello"⟩] ∧
    (feedChunks applyDelta (initDecode t0)
      [c7line1.data, c7line2.data, doneLine.data]).streamDone = true := by
  have e1 : (feedChunks applyDelta (initDecode t0)
      [c7line1.data, c7line2.data, doneLine.data]).transcript
      = applyDelta (applyDelta t0 "He") "Hello" := rfl
  have e2 : (feedChunks applyDelta (initDecode t0)
      [c7line1.data, c7line2.data, doneLine.data]).streamDone = true := rfl
  refine ⟨?_, e2⟩
  rw [e1, applyDelta_append t0 "He" h]
  have hlast : (t0 ++ [(⟨Role.assistant, "He"⟩ : ChatMsg)]).getLast?
      = some (⟨Role.assistant, "He"⟩ : ChatMsg) := List.getLast?_concat t0
  rw [applyDelta_replace _ _ _ hlast rfl, List.dropLast_concat]

theorem hello_stream_fold_w :
    (feedChunks applyDelta (initDecode [⟨Role.user, "q"⟩])
      [c7line1.data, c7line2.data, doneLine.data]).transcript
      = [⟨Role.user, "q"⟩, ⟨Role.assistant, "Hello"⟩] ∧
    (feedChunks applyDelta (initDecode [⟨Role.user, "q"⟩])
      [c7line1.data, c7line2.data, doneLine.data]).streamDone = true := by
  have h := hello_stream_fold [⟨Role.user, "q"⟩] (by decide)
  simpa using h

/-- C1: when every transport call of streamChat answers 429, the call
    makes exactly 3 attempts, sleeps the two intermediate backoffs of
    700 and 1400, surfaces two transient rate-limited toasts followed by
    the terminal destructive rate-limit toast, clears the loading flag,
    and leaves the transcript exactly as it stood before the first
    transport call: the prior conversation plus the just-appended user
    entry, with no assistant entry added. -/
theorem client_rate_limit_exhaustion (initial : List ChatMsg) (um : String)
    (responses : Nat → FetchResult)
    (h : ∀ i, i < maxRetries →
      ∃ r, responses i = FetchResult.success r ∧ r.status = 429) :
    streamChat initial um responses =
      ⟨initial ++ [⟨Role.user, um⟩], false,
        [rlTransientToast, rlTransientToast, rlTerminalToast], [700, 1400], 3⟩ := by
  obtain ⟨r0, e0, s0⟩ := h 0 (by decide)
  obtain ⟨r1, e1, s1⟩ := h 1 (by decide)
  obtain ⟨r2, e2, s2⟩ := h 2 (by decide)
  unfold streamChat
  unfold maxRetries
  simp only [streamChatLoop, e0, e1, e2, s0, s1, s2, maxRetries]
  norm_num

theorem client_rate_limit_exhaustion_w :
    streamChat [] "hi" relayAll429 =
      ⟨[⟨Role.user, "hi"⟩], false,
        [rlTransientToast, rlTransientToast, rlTerminalToast], [700, 1400], 3⟩ := by
  have h := client_rate_limit_exhaustion [] "hi" relayAll429
    (fun i _ => ⟨⟨429, none, true, []⟩, rfl, rfl⟩)
  simpa using h

/-- C8: the auxiliary driver streamAssistantChat issues exactly one
    transport attempt per invocation: on a rate-limited response it
    surfaces the terminal destructive rate-limited toast, clears its
    loading flag, performs no backoff wait and no retry, and leaves the
    auxiliary transcript as the prior conversation plus the appended
    user entry. -/
theorem assistant_single_attempt (url : Option String) (am : List ChatMsg) (um : String)
    (responses : Nat → FetchResult) (r : HttpResp)
    (h : responses 0 = FetchResult.success r) (h429 : r.status = 429) :
    streamAssistantChat url am um responses =
      ⟨am ++ [⟨Role.user, um⟩], false, [assistRlToast], [], 1,
        ⟨Role.system, systemPromptFor url⟩ :: (am ++ [⟨Role.user, um⟩])⟩ := by
  unfold streamAssistantChat
  simp [h, h429]

theorem assistant_single_attempt_w :
    streamAssistantChat none [] "hi" assistRelay429 =
      ⟨[⟨Role.user, "hi"⟩], false, [assistRlToast], [], 1,
        ⟨Role.system, systemPromptFor none⟩ :: [⟨Role.user, "hi"⟩]⟩ := by
  have h := assistant_single_attempt none [] "hi" assistRelay429 ⟨429, none, true, []⟩ rfl rfl
  simpa using h

theorem isOk_false_of_429 (r : UpstreamResp) (h : r.status = 429) : r.isOk = false := by
  simp [UpstreamResp.isOk, h]

theorem isOk_false_of_402 (r : UpstreamResp) (h : r.status = 402) : r.isOk = false := by
  simp [UpstreamResp.isOk, h]

/-- C2 counterexample: with a retry-after header that is present and
    numeric with value 0 on every rate-limited response, the slept
    delays are the linear fallbacks 800, 1600, 2400 rather than the
    header value 0: the source's truthiness check Number(h) || fallback
    discards a numeric 0. -/
theorem retry_after_zero_falls_back :
    (∀ i, (uZeroRA i).retryAfter = some 0) ∧
    (∀ i, (uZeroRA i).status = 429) ∧
    (chatRun uZeroRA).sleeps = [800, 1600, 2400] ∧
    (chatRun uZeroRA).sleeps ≠ [0, 0, 0] :=
  ⟨fun _ => rfl, fun _ => rfl, by decide, by decide⟩

/-- C2 (amended): a run of N consecutive rate-limited upstream
    responses causes exactly min(3, N) attempts before either success or
    the terminal rate-limit-exceeded error, and the delay slept after
    attempt k equals the upstream-provided retry-after value whenever
    that header is present, numeric and nonzero, and (k + 1) times 800
    time units otherwise (in zero-based attempt numbering; a numeric
    retry-after of 0 is sent to the linear fallback by the source's
    truthiness check). -/
theorem proxy_retry_schedule (u : Nat → UpstreamResp) (N : Nat)
    (h : ∀ i, i < N → (u i).status = 429) :
    (maxRetries ≤ N →
      chatRun u = ⟨rateLimitExhausted, List.replicate 3 defaultModel,
        (List.range 3).map (fun k => match (u k).retryAfter with
          | some v => if v = 0 then ((k : Int) + 1) * 800 else v
          | none => ((k : Int) + 1) * 800), 0⟩) ∧
    (N < maxRetries → (u N).isOk = true →
      chatRun u = ⟨⟨200, some "text/event-stream", some defaultModel, (u N).body⟩,
        List.replicate (N + 1) defaultModel,
        (List.range N).map (fun k => match (u k).retryAfter with
          | some v => if v = 0 then ((k : Int) + 1) * 800 else v
          | none => ((k : Int) + 1) * 800), 0⟩) := by
  constructor
  · intro h3
    unfold maxRetries at h3
    have s0 := h 0 (by omega)
    have s1 := h 1 (by omega)
    have s2 := h 2 (by omega)
    have o0 := isOk_false_of_429 _ s0
    have o1 := isOk_false_of_429 _ s1
    have o2 := isOk_false_of_429 _ s2
    unfold chatRun maxRetries
    simp [chatLoop, o0, o1, o2, s0, s1, s2, retryAfterDelay, List.range_succ,
      List.replicate]
  · intro hN hok
    unfold maxRetries at hN
    interval_cases N
    · unfold chatRun maxRetries
      simp [chatLoop, hok, List.replicate]
    · have s0 := h 0 (by omega)
      have o0 := isOk_false_of_429 _ s0
      unfold chatRun maxRetries
      simp [chatLoop, o0, s0, hok, retryAfterDelay, List.range_succ, List.replicate]
    · have s0 := h 0 (by omega)
      have s1 := h 1 (by omega)
      have o0 := isOk_false_of_429 _ s0
      have o1 := isOk_false_of_429 _ s1
      unfold chatRun maxRetries
      simp [chatLoop, o0, o1, s0, s1, hok, retryAfterDelay, List.range_succ,
        List.replicate]

theorem proxy_retry_schedule_w :
    chatRun uZeroRA = ⟨rateLimitExhausted, List.replicate 3 defaultModel,
      (List.range 3).map (fun k => match (uZeroRA k).retryAfter with
        | some v => if v = 0 then ((k : Int) + 1) * 800 else v
        | none => ((k : Int) + 1) * 800), 0⟩ :=
  (proxy_retry_schedule uZeroRA 3 (fun _ _ => rfl)).1 (by decide)

theorem chatLoop_downgrades_tried (u : Nat → UpstreamResp) :
    ∀ fuel attempt model, (chatLoop u fuel attempt model true).downgrades = 0 := by
  intro fuel
  induction fuel with
  | zero => intro _ _; rfl
  | succ f ih =>
    intro attempt model
    simp only [chatLoop]
    by_cases h1 : (u attempt).isOk = true
    · simp [h1]
    · simp only [h1, if_false, Bool.not_eq_true] at *
      by_cases h2 : (u attempt).status = 429
      · simp [h1, h2, ih]
      · by_cases h3 : (u attempt).status = 402
        · simp [h1, h2, h3]
        · simp [h1, h2, h3]

theorem chatLoop_downgrades_le (u : Nat → UpstreamResp) :
    ∀ fuel attempt model tried, (chatLoop u fuel attempt model tried).downgrades ≤ 1 := by
  intro fuel
  induction fuel with
  | zero => intro _ _ _; simp [chatLoop]
  | succ f ih =>
    intro attempt model tried
    simp only [chatLoop]
    by_cases h1 : (u attempt).isOk = true
    · simp [h1]
    · by_cases h2 : (u attempt).status = 429
      · simp [h1, h2, ih]
      · by_cases h3 : (u attempt).status = 402
        · cases tried with
          | true => simp [h1, h2, h3]
          | false => simp [h1, h2, h3, chatLoop_downgrades_tried u f]
        · simp [h1, h2, h3]

theorem status_ne429_of_ok (r : UpstreamResp) (h : r.isOk = true) : ¬ r.status = 429 := by
  simp [UpstreamResp.isOk] at h
  omega

theorem chatLoop_models_cons (u : Nat → UpstreamResp) :
    ∀ fuel attempt model tried, 0 < fuel →
      ∃ t, (chatLoop u fuel attempt model tried).models = model :: t := by
  intro fuel attempt model tried hf
  cases fuel with
  | zero => omega
  | succ f =>
    by_cases h1 : (u attempt).isOk = true
    · exact ⟨[], by simp [chatLoop, h1]⟩
    · by_cases h2 : (u attempt).status = 429
      · exact ⟨(chatLoop u f (attempt + 1) model tried).models, by simp [chatLoop, h1, h2]⟩
      · by_cases h3 : (u attempt).status = 402
        · cases tried with
          | false =>
            exact ⟨(chatLoop u f (attempt + 1) liteModel true).models,
              by simp [chatLoop, h1, h2, h3]⟩
          | true => exact ⟨[], by simp [chatLoop, h1, h2, h3]⟩
        · exact ⟨[], by simp [chatLoop, h1, h2, h3]⟩

theorem chatLoop_other_terminal (u : Nat → UpstreamResp) :
    ∀ fuel attempt model tried i,
      i < (chatLoop u fuel attempt model tried).models.length →
      isOtherErr (u (attempt + i)) = true →
      (chatLoop u fuel attempt model tried).resp = gatewayError ∧
      (chatLoop u fuel attempt model tried).models.length = i + 1 := by
  intro fuel
  induction fuel with
  | zero =>
    intro attempt model tried i hi _
    simp [chatLoop] at hi
  | succ f ih =>
    intro attempt model tried i hi hother
    by_cases h1 : (u attempt).isOk = true
    · have hi0 : i = 0 := by simp [chatLoop, h1] at hi; omega
      subst hi0
      rw [Nat.add_zero] at hother
      simp [isOtherErr, h1] at hother
    · by_cases h2 : (u attempt).status = 429
      · cases i with
        | zero =>
          rw [Nat.add_zero] at hother
          simp [isOtherErr, h2] at hother
        | succ k =>
          have hi2 : k < (chatLoop u f (attempt + 1) model tried).models.length := by
            simp [chatLoop, h1, h2] at hi
            omega
          have hoth2 : isOtherErr (u (attempt + 1 + k)) = true := by
            have he : attempt + (k + 1) = attempt + 1 + k := by omega
            rwa [he] at hother
          have ihr := ih (attempt + 1) model tried k hi2 hoth2
          constructor
          · simp [chatLoop, h1, h2]
            exact ihr.1
          · have := ihr.2
            simp [chatLoop, h1, h2]
            omega
      · by_cases h3 : (u attempt).status = 402
        · cases tried with
          | false =>
            cases i with
            | zero =>
              rw [Nat.add_zero] at hother
              simp [isOtherErr, h3] at hother
            | succ k =>
              have hi2 : k < (chatLoop u f (attempt + 1) liteModel true).models.length := by
                simp [chatLoop, h1, h2, h3] at hi
                omega
              have hoth2 : isOtherErr (u (attempt + 1 + k)) = true := by
                have he : attempt + (k + 1) = attempt + 1 + k := by omega
                rwa [he] at hother
              have ihr := ih (attempt + 1) liteModel true k hi2 hoth2
              constructor
              · simp [chatLoop, h1, h2, h3]
                exact ihr.1
              · have := ihr.2
                simp [chatLoop, h1, h2, h3]
                omega
          | true =>
            have hi0 : i = 0 := by simp [chatLoop, h1, h2, h3] at hi; omega
            subst hi0
            rw [Nat.add_zero] at hother
            simp [isOtherErr, h3] at hother
        · have hi0 : i = 0 := by simp [chatLoop, h1, h2, h3] at hi; omega
          subst hi0
          constructor <;> simp [chatLoop, h1, h2, h3]

theorem chatLoop_sleeps_count (u : Nat → UpstreamResp) :
    ∀ fuel attempt model tried,
      (chatLoop u fuel attempt model tried).sleeps.length =
        ((List.range (chatLoop u fuel attempt model tried).models.length).countP
          (fun j => (u (attempt + j)).status == 429)) := by
  intro fuel
  induction fuel with
  | zero => intro attempt model tried; simp [chatLoop]
  | succ f ih =>
    intro attempt model tried
    by_cases h1 : (u attempt).isOk = true
    · have hne := status_ne429_of_ok _ h1
      simp [chatLoop, h1, List.range_succ_eq_map, List.countP_cons, hne]
    · by_cases h2 : (u attempt).status = 429
      · have ihr := ih (attempt + 1) model tried
        have hfun : ((fun j => (u (attempt + j)).status == 429) ∘ Nat.succ)
            = (fun j => (u (attempt + 1 + j)).status == 429) := by
          funext j
          simp only [Function.comp_apply]
          have he : attempt + Nat.succ j = attempt + 1 + j := by omega
          rw [he]
        simp [chatLoop, h1, h2, List.range_succ_eq_map, List.countP_cons, List.countP_map,
          hfun, ihr]
      · by_cases h3 : (u attempt).status = 402
        · cases tried with
          | false =>
            have ihr := ih (attempt + 1) liteModel true
            have hfun : ((fun j => (u (attempt + j)).status == 429) ∘ Nat.succ)
                = (fun j => (u (attempt + 1 + j)).status == 429) := by
              funext j
              simp only [Function.comp_apply]
              have he : attempt + Nat.succ j = attempt + 1 + j := by omega
              rw [he]
            simp [chatLoop, h1, h2, h3, List.range_succ_eq_map, List.countP_cons,
              List.countP_map, hfun, ihr]
          | true =>
            simp [chatLoop, h1, h2, h3, List.range_succ_eq_map, List.countP_cons]
        · simp [chatLoop, h1, h2, h3, List.range_succ_eq_map, List.countP_cons]

theorem chatLoop_tried402 (u : Nat → UpstreamResp) :
    ∀ fuel attempt model i,
      i < (chatLoop u fuel attempt model true).models.length →
      (u (attempt + i)).status = 402 →
      (chatLoop u fuel attempt model true).resp = paymentRequired ∧
      (chatLoop u fuel attempt model true).models.length = i + 1 := by
  intro fuel
  induction fuel with
  | zero =>
    intro attempt model i hi _
    simp [chatLoop] at hi
  | succ f ih =>
    intro attempt model i hi h402
    by_cases h1 : (u attempt).isOk = true
    · have hi0 : i = 0 := by simp [chatLoop, h1] at hi; omega
      subst hi0
      rw [Nat.add_zero] at h402
      exact absurd h402 (by have := isOk_false_of_402 (u attempt); intro hc; rw [this hc] at h1; exact Bool.noConfusion h1)
    · by_cases h2 : (u attempt).status = 429
      · cases i with
        | zero =>
          rw [Nat.add_zero] at h402
          rw [h402] at h2
          omega
        | succ k =>
          have hi2 : k < (chatLoop u f (attempt + 1) model true).models.length := by
            simp [chatLoop, h1, h2] at hi
            omega
          have h4022 : (u (attempt + 1 + k)).status = 402 := by
            have he : attempt + (k + 1) = attempt + 1 + k := by omega
            rwa [he] at h402
          have ihr := ih (attempt + 1) model k hi2 h4022
          constructor
          · simp [chatLoop, h1, h2]
            exact ihr.1
          · have := ihr.2
            simp [chatLoop, h1, h2]
            omega
      · by_cases h3 : (u attempt).status = 402
        · have hi0 : i = 0 := by simp [chatLoop, h1, h2, h3] at hi; omega
          subst hi0
          constructor <;> simp [chatLoop, h1, h2, h3]
        · have hi0 : i = 0 := by simp [chatLoop, h1, h2, h3] at hi; omega
          subst hi0
          rw [Nat.add_zero] at h402
          exact absurd h402 h3

theorem chatLoop_first402 (u : Nat → UpstreamResp) :
    ∀ fuel attempt model i,
      i < (chatLoop u fuel attempt model false).models.length →
      (∀ j, j < i → ¬ (u (attempt + j)).status = 402) →
      (u (attempt + i)).status = 402 →
      (chatLoop u fuel attempt model false).downgrades = 1 ∧
      (i + 1 < fuel → i + 1 < (chatLoop u fuel attempt model false).models.length ∧
        (chatLoop u fuel attempt model false).models.get? (i + 1) = some liteModel) ∧
      (i + 1 = fuel → (chatLoop u fuel attempt model false).resp = rateLimitExhausted ∧
        (chatLoop u fuel attempt model false).models.length = fuel) := by
  intro fuel
  induction fuel with
  | zero =>
    intro attempt model i hi _ _
    simp [chatLoop] at hi
  | succ f ih =>
    intro attempt model i hi hpre h402
    cases i with
    | zero =>
      rw [Nat.add_zero] at h402
      have ho := isOk_false_of_402 _ h402
      have h1 : ¬ (u attempt).isOk = true := by rw [ho]; exact Bool.false_ne_true
      have h2 : ¬ (u attempt).status = 429 := by rw [h402]; omega
      refine ⟨?_, ?_, ?_⟩
      · simp [chatLoop, h1, h2, h402, chatLoop_downgrades_tried u f]
      · intro hf
        obtain ⟨t, ht⟩ := chatLoop_models_cons u f (attempt + 1) liteModel true (by omega)
        constructor
        · simp [chatLoop, h1, h2, h402, ht]
        · simp [chatLoop, h1, h2, h402, ht]
      · intro hf
        have hf0 : f = 0 := by omega
        subst hf0
        constructor <;> simp [chatLoop, h1, h2, h402]
    | succ k =>
      have h0 : ¬ (u attempt).status = 402 := by
        have := hpre 0 (by omega)
        rwa [Nat.add_zero] at this
      by_cases h1 : (u attempt).isOk = true
      · exfalso
        simp [chatLoop, h1] at hi
      · by_cases h2 : (u attempt).status = 429
        · have hi2 : k < (chatLoop u f (attempt + 1) model false).models.length := by
            simp [chatLoop, h1, h2] at hi
            omega
          have hpre2 : ∀ j, j < k → ¬ (u (attempt + 1 + j)).status = 402 := by
            intro j hj
            have := hpre (j + 1) (by omega)
            have he : attempt + (j + 1) = attempt + 1 + j := by omega
            rwa [he] at this
          have h4022 : (u (attempt + 1 + k)).status = 402 := by
            have he : attempt + (k + 1) = attempt + 1 + k := by omega
            rwa [he] at h402
          have ihr := ih (attempt + 1) model k hi2 hpre2 h4022
          refine ⟨?_, ?_, ?_⟩
          · simp [chatLoop, h1, h2]
            exact ihr.1
          · intro hf
            have h4 := ihr.2.1 (by omega)
            constructor
            · have := h4.1
              simp [chatLoop, h1, h2]
              omega
            · have := h4.2
              simp [chatLoop, h1, h2]
              simpa using this
          · intro hf
            have h4 := ihr.2.2 (by omega)
            constructor
            · simp [chatLoop, h1, h2]
              exact h4.1
            · have := h4.2
              simp [chatLoop, h1, h2]
              omega
        · exfalso
          simp [chatLoop, h1, h2, h0] at hi

theorem chatLoop_second402 (u : Nat → UpstreamResp) :
    ∀ fuel attempt model i j,
      j < i → i < (chatLoop u fuel attempt model false).models.length →
      (u (attempt + j)).status = 402 → (u (attempt + i)).status = 402 →
      (chatLoop u fuel attempt model false).resp = paymentRequired ∧
      (chatLoop u fuel attempt model false).models.length = i + 1 := by
  intro fuel
  induction fuel with
  | zero =>
    intro attempt model i j _ hi _ _
    simp [chatLoop] at hi
  | succ f ih =>
    intro attempt model i j hji hi hj402 hi402
    by_cases h0 : (u attempt).status = 402
    · have ho := isOk_false_of_402 _ h0
      have h1 : ¬ (u attempt).isOk = true := by rw [ho]; exact Bool.false_ne_true
      have h2 : ¬ (u attempt).status = 429 := by rw [h0]; omega
      cases i with
      | zero => omega
      | succ k =>
        have hi2 : k < (chatLoop u f (attempt + 1) liteModel true).models.length := by
          simp [chatLoop, h1, h2, h0] at hi
          omega
        have h4022 : (u (attempt + 1 + k)).status = 402 := by
          have he : attempt + (k + 1) = attempt + 1 + k := by omega
          rwa [he] at hi402
        have htr := chatLoop_tried402 u f (attempt + 1) liteModel k hi2 h4022
        constructor
        · simp [chatLoop, h1, h2, h0]
          exact htr.1
        · have := htr.2
          simp [chatLoop, h1, h2, h0]
          omega
    · cases j with
      | zero =>
        rw [Nat.add_zero] at hj402
        exact absurd hj402 h0
      | succ j2 =>
        cases i with
        | zero => omega
        | succ k =>
          by_cases h1 : (u attempt).isOk = true
          · exfalso
            simp [chatLoop, h1] at hi
          · by_cases h2 : (u attempt).status = 429
            · have hi2 : k < (chatLoop u f (attempt + 1) model false).models.length := by
                simp [chatLoop, h1, h2] at hi
                omega
              have hj4022 : (u (attempt + 1 + j2)).status = 402 := by
                have he : attempt + (j2 + 1) = attempt + 1 + j2 := by omega
                rwa [he] at hj402
              have hi4022 : (u (attempt + 1 + k)).status = 402 := by
                have he : attempt + (k + 1) = attempt + 1 + k := by omega
                rwa [he] at hi402
              have ihr := ih (attempt + 1) model k j2 (by omega) hi2 hj4022 hi4022
              constructor
              · simp [chatLoop, h1, h2]
                exact ihr.1
              · have := ihr.2
                simp [chatLoop, h1, h2]
                omega
            · exfalso
              simp [chatLoop, h1, h2, h0] at hi

/-- C3 counterexample: when the first quota response arrives on the
    final attempt slot (after two rate-limited attempts), the downgrade
    happens but no retry follows it: every fetch used the primary model,
    the cheaper model is never sent, and the invocation terminates with
    the rate-limit-exceeded error rather than retrying immediately. -/
theorem late_quota_downgrade_no_retry :
    (uLateQuota 2).status = 402 ∧
    (chatRun uLateQuota).downgrades = 1 ∧
    (chatRun uLateQuota).models = [defaultModel, defaultModel, defaultModel] ∧
    liteModel ∉ (chatRun uLateQuota).models ∧
    (chatRun uLateQuota).resp = rateLimitExhausted := by
  refine ⟨by decide, by decide, by decide, by decide, by decide⟩

/-- C3 (amended): across one proxy invocation at most one automatic
    downgrade ever occurs; the first quota response with the flag unset
    (at any fetched attempt i, whatever mix of rate limits preceded it)
    switches the model, sets the flag, and retries immediately without
    delay provided an attempt slot remains - the next fetch uses the
    cheaper model, and the run's sleep count equals its count of
    rate-limited attempts, so the downgrade adds no delay; the downgrade
    consumes an attempt slot, and a downgrade on the final slot instead
    terminates with the rate-limit-exceeded error; every subsequent
    quota response at a fetched attempt, however many attempts after the
    first, terminates with the payment-required error and ends the run
    there - never a second downgrade. The last conjunct spells out the
    complete runs for all-429 prefixes. -/
theorem proxy_single_downgrade (u : Nat → UpstreamResp) :
    (chatRun u).downgrades ≤ 1 ∧
    (chatRun u).sleeps.length =
      ((List.range (chatRun u).models.length).countP (fun j => (u j).status == 429)) ∧
    (∀ i, i < (chatRun u).models.length → (∀ j, j < i → ¬ (u j).status = 402) →
      (u i).status = 402 →
      ((chatRun u).downgrades = 1 ∧
       (i + 1 < maxRetries → i + 1 < (chatRun u).models.length ∧
         (chatRun u).models.get? (i + 1) = some liteModel) ∧
       (i + 1 = maxRetries → (chatRun u).resp = rateLimitExhausted ∧
         (chatRun u).models.length = maxRetries))) ∧
    (∀ i j, j < i → i < (chatRun u).models.length →
      (u j).status = 402 → (u i).status = 402 →
      (chatRun u).resp = paymentRequired ∧ (chatRun u).models.length = i + 1) ∧
    (∀ i, i < maxRetries → (∀ j, j < i → (u j).status = 429) → (u i).status = 402 →
      ((i + 1 < maxRetries → (u (i + 1)).isOk = true →
          chatRun u = ⟨⟨200, some "text/event-stream", some liteModel, (u (i + 1)).body⟩,
            List.replicate (i + 1) defaultModel ++ [liteModel],
            (List.range i).map (fun k => retryAfterDelay (u k).retryAfter k), 1⟩) ∧
       (i + 1 < maxRetries → (u (i + 1)).status = 402 →
          chatRun u = ⟨paymentRequired, List.replicate (i + 1) defaultModel ++ [liteModel],
            (List.range i).map (fun k => retryAfterDelay (u k).retryAfter k), 1⟩) ∧
       (i + 1 = maxRetries →
          chatRun u = ⟨rateLimitExhausted, List.replicate maxRetries defaultModel,
            (List.range i).map (fun k => retryAfterDelay (u k).retryAfter k), 1⟩))) := by
  refine ⟨chatLoop_downgrades_le u maxRetries 0 defaultModel false, ?_, ?_, ?_, ?_⟩
  · have h := chatLoop_sleeps_count u maxRetries 0 defaultModel false
    simpa using h
  · intro i hi hpre h402
    exact chatLoop_first402 u maxRetries 0 defaultModel i hi
      (fun j hj => by rw [Nat.zero_add]; exact hpre j hj)
      (by rw [Nat.zero_add]; exact h402)
  · intro i j hji hi hj402 hi402
    exact chatLoop_second402 u maxRetries 0 defaultModel i j hji hi
      (by rw [Nat.zero_add]; exact hj402) (by rw [Nat.zero_add]; exact hi402)
  intro i hi hpre h402
  have hne : ¬ (u i).status = 429 := by rw [h402]; decide
  have ho := isOk_false_of_402 _ h402
  unfold maxRetries at hi
  interval_cases i
  · refine ⟨?_, ?_, ?_⟩
    · intro _ hok
      unfold chatRun maxRetries
      simp [chatLoop, ho, hne, h402, hok, List.replicate]
    · intro _ h402b
      have hob := isOk_false_of_402 _ h402b
      have hneb : ¬ (u 1).status = 429 := by rw [h402b]; decide
      unfold chatRun maxRetries
      simp [chatLoop, ho, hne, h402, hob, hneb, h402b, List.replicate]
    · intro he
      exact absurd he (by unfold maxRetries; omega)
  · have s0 := hpre 0 (by omega)
    have o0 := isOk_false_of_429 _ s0
    refine ⟨?_, ?_, ?_⟩
    · intro _ hok
      unfold chatRun maxRetries
      simp [chatLoop, o0, s0, ho, hne, h402, hok, retryAfterDelay, List.range_succ,
        List.replicate]
    · intro _ h402b
      have hob := isOk_false_of_402 _ h402b
      have hneb : ¬ (u 2).status = 429 := by rw [h402b]; decide
      unfold chatRun maxRetries
      simp [chatLoop, o0, s0, ho, hne, h402, hob, hneb, h402b, retryAfterDelay,
        List.range_succ, List.replicate]
    · intro he
      exact absurd he (by unfold maxRetries; omega)
  · have s0 := hpre 0 (by omega)
    have s1 := hpre 1 (by omega)
    have o0 := isOk_false_of_429 _ s0
    have o1 := isOk_false_of_429 _ s1
    refine ⟨?_, ?_, ?_⟩
    · intro hlt
      exact absurd hlt (by unfold maxRetries; omega)
    · intro hlt
      exact absurd hlt (by unfold maxRetries; omega)
    · intro _
      unfold chatRun maxRetries
      simp [chatLoop, o0, o1, s0, s1, ho, hne, h402, retryAfterDelay, List.range_succ,
        List.replicate]

theorem proxy_single_downgrade_w :
    (chatRun uQuotaSandwich).downgrades ≤ 1 ∧
    (chatRun uQuotaSandwich).downgrades = 1 ∧
    (1 < (chatRun uQuotaSandwich).models.length ∧
      (chatRun uQuotaSandwich).models.get? 1 = some liteModel) ∧
    ((chatRun uQuotaSandwich).resp = paymentRequired ∧
      (chatRun uQuotaSandwich).models.length = 3) ∧
    chatRun uLateQuota = ⟨rateLimitExhausted, List.replicate maxRetries defaultModel,
      (List.range 2).map (fun k => retryAfterDelay (uLateQuota k).retryAfter k), 1⟩ := by
  have h1 := proxy_single_downgrade uQuotaSandwich
  have h2 := proxy_single_downgrade uLateQuota
  have hfirst := h1.2.2.1 0 (by decide) (fun j hj => absurd hj (by omega)) (by decide)
  refine ⟨h1.1, hfirst.1, hfirst.2.1 (by decide), ?_, ?_⟩
  · exact h1.2.2.2.1 2 0 (by decide) (by decide) (by decide) (by decide)
  · exact (h2.2.2.2.2 2 (by decide) (fun j hj => by interval_cases j <;> rfl)
      (by decide)).2.2 (by decide)

theorem chatLoop_success (u : Nat → UpstreamResp) :
    ∀ fuel attempt model tried, (model = defaultModel ∨ model = liteModel) →
    (chatLoop u fuel attempt model tried).resp.status = 200 →
    ∃ n, (chatLoop u fuel attempt model tried).models.length = n + 1 ∧
      (u (attempt + n)).isOk = true ∧
      (chatLoop u fuel attempt model tried).resp =
        ⟨200, some "text/event-stream",
          (chatLoop u fuel attempt model tried).models.getLast?, (u (attempt + n)).body⟩ ∧
      ((chatLoop u fuel attempt model tried).models.getLast? = some defaultModel ∨
       (chatLoop u fuel attempt model tried).models.getLast? = some liteModel) := by
  intro fuel
  induction fuel with
  | zero =>
    intro attempt model tried _ hst
    exact absurd hst (by simp [chatLoop, rateLimitExhausted])
  | succ f ih =>
    intro attempt model tried hm hst
    by_cases h1 : (u attempt).isOk = true
    · refine ⟨0, ?_, ?_, ?_, ?_⟩
      · simp [chatLoop, h1]
      · simpa using h1
      · simp [chatLoop, h1]
      · rcases hm with hm | hm <;> rw [hm] <;> simp [chatLoop, h1, hm]
    · by_cases h2 : (u attempt).status = 429
      · have hst2 : (chatLoop u f (attempt + 1) model tried).resp.status = 200 := by
          simpa [chatLoop, h1, h2] using hst
        obtain ⟨n, hlen, hok, hresp, hdisj⟩ := ih (attempt + 1) model tried hm hst2
        have hne : (chatLoop u f (attempt + 1) model tried).models ≠ [] := by
          intro hcon
          rw [hcon] at hlen
          simp at hlen
        obtain ⟨b, t, hbt⟩ : ∃ b t, (chatLoop u f (attempt + 1) model tried).models = b :: t := by
          cases hmm : (chatLoop u f (attempt + 1) model tried).models with
          | nil => exact absurd hmm hne
          | cons b t => exact ⟨b, t, rfl⟩
        have hlast : (model :: (chatLoop u f (attempt + 1) model tried).models).getLast?
            = (chatLoop u f (attempt + 1) model tried).models.getLast? := by
          rw [hbt, List.getLast?_cons_cons]
        refine ⟨n + 1, ?_, ?_, ?_, ?_⟩
        · simp [chatLoop, h1, h2, hlen]
        · have : attempt + (n + 1) = attempt + 1 + n := by omega
          rw [this]
          exact hok
        · have : attempt + (n + 1) = attempt + 1 + n := by omega
          rw [this]
          simp [chatLoop, h1, h2, hresp, hlast]
        · simp [chatLoop, h1, h2, hlast, hdisj]
      · by_cases h3 : (u attempt).status = 402 ∧ tried = false
        · have hst2 : (chatLoop u f (attempt + 1) liteModel true).resp.status = 200 := by
            simpa [chatLoop, h1, h2, h3.1, h3.2] using hst
          obtain ⟨n, hlen, hok, hresp, hdisj⟩ := ih (attempt + 1) liteModel true (Or.inr rfl) hst2
          have hne : (chatLoop u f (attempt + 1) liteModel true).models ≠ [] := by
            intro hcon
            rw [hcon] at hlen
            simp at hlen
          obtain ⟨b, t, hbt⟩ : ∃ b t, (chatLoop u f (attempt + 1) liteModel true).models = b :: t := by
            cases hmm : (chatLoop u f (attempt + 1) liteModel true).models with
            | nil => exact absurd hmm hne
            | cons b t => exact ⟨b, t, rfl⟩
          have hlast : (model :: (chatLoop u f (attempt + 1) liteModel true).models).getLast?
              = (chatLoop u f (attempt + 1) liteModel true).models.getLast? := by
            rw [hbt, List.getLast?_cons_cons]
          refine ⟨n + 1, ?_, ?_, ?_, ?_⟩
          · simp [chatLoop, h1, h2, h3.1, h3.2, hlen]
          · have : attempt + (n + 1) = attempt + 1 + n := by omega
            rw [this]
            exact hok
          · have : attempt + (n + 1) = attempt + 1 + n := by omega
            rw [this]
            simp [chatLoop, h1, h2, h3.1, h3.2, hresp, hlast]
          · simp [chatLoop, h1, h2, h3.1, h3.2, hlast, hdisj]
        · by_cases h4 : (u attempt).status = 402
          · have ht : tried = true := by
              cases htr : tried with
              | false => exact absurd ⟨h4, htr⟩ h3
              | true => rfl
            exact absurd hst (by simp [chatLoop, h1, h2, h4, ht, paymentRequired])
          · exact absurd hst (by simp [chatLoop, h1, h2, h4, gatewayError])

/-- C5: whenever the proxy run returns a success response, that
    response is a pass-through of the body of the last upstream attempt,
    which responded OK; the Content-Type is text/event-stream, the
    x-model-used header names the model actually sent on that attempt,
    which is one of the two configured models, and no attempt follows
    the successful one (the fetch trace has exactly n + 1 entries where
    n is the index of the OK attempt). -/
theorem proxy_success_passthrough (u : Nat → UpstreamResp)
    (h : (chatRun u).resp.status = 200) :
    ∃ n, (chatRun u).models.length = n + 1 ∧ (u n).isOk = true ∧
      (chatRun u).resp = ⟨200, some "text/event-stream", (chatRun u).models.getLast?,
        (u n).body⟩ ∧
      ((chatRun u).models.getLast? = some defaultModel ∨
       (chatRun u).models.getLast? = some liteModel) := by
  have hh := chatLoop_success u maxRetries 0 defaultModel false (Or.inl rfl) h
  simpa using hh

theorem proxy_success_passthrough_w :
    (chatRun uAllOk).resp.status = 200 ∧
    ∃ n, (chatRun uAllOk).models.length = n + 1 ∧ (uAllOk n).isOk = true ∧
      (chatRun uAllOk).resp = ⟨200, some "text/event-stream",
        (chatRun uAllOk).models.getLast?, (uAllOk n).body⟩ ∧
      ((chatRun uAllOk).models.getLast? = some defaultModel ∨
       (chatRun uAllOk).models.getLast? = some liteModel) :=
  ⟨by decide, proxy_success_passthrough uAllOk (by decide)⟩

/-- C9: when the upstream credential is absent (unset or empty), every
    non-preflight request fails before any upstream call is made: the
    fetch trace is empty and the caller receives a 500 JSON error whose
    body carries the raised exception's message, which is the
    configuration message whenever the inbound body parses (a body that
    fails to parse raises its own parse error first, also before any
    upstream call). -/
theorem missing_key_fails_before_upstream (method : String)
    (parse : Except String (List ChatMsg)) (key : Option String) (u : Nat → UpstreamResp)
    (hm : method ≠ "OPTIONS") (hk : keyAbsent key = true) :
    (chatHandler method parse key u).models = [] ∧
    (chatHandler method parse key u).resp.status = 500 ∧
    (chatHandler method parse key u).resp.contentType = some "application/json" ∧
    (chatHandler method parse key u).resp.body =
      jsonErrBody (match parse with
        | Except.error e => e
        | Except.ok _ => "LOVABLE_API_KEY is not configured") := by
  unfold chatHandler
  rw [if_neg hm]
  cases parse with
  | error e => exact ⟨rfl, rfl, rfl, rfl⟩
  | ok msgs =>
    cases key with
    | none => exact ⟨rfl, rfl, rfl, rfl⟩
    | some k =>
      have hke : k.isEmpty = true := by simpa [keyAbsent] using hk
      simp [hke]
      exact ⟨rfl, rfl, rfl⟩

theorem missing_key_fails_before_upstream_w :
    (chatHandler "POST" (Except.ok []) none uAllOk).models = [] ∧
    (chatHandler "POST" (Except.ok []) none uAllOk).resp.status = 500 ∧
    (chatHandler "POST" (Except.ok []) none uAllOk).resp.contentType
      = some "application/json" ∧
    (chatHandler "POST" (Except.ok []) none uAllOk).resp.body =
      jsonErrBody "LOVABLE_API_KEY is not configured" :=
  missing_key_fails_before_upstream "POST" (Except.ok []) none uAllOk (by decide) rfl

theorem chatLoop_other_congr (u1 u2 : Nat → UpstreamResp)
    (hrel : ∀ i, u1 i = u2 i ∨ (isOtherErr (u1 i) = true ∧ isOtherErr (u2 i) = true)) :
    ∀ fuel attempt model tried,
      chatLoop u1 fuel attempt model tried = chatLoop u2 fuel attempt model tried := by
  intro fuel
  induction fuel with
  | zero => intro _ _ _; rfl
  | succ f ih =>
    intro attempt model tried
    rcases hrel attempt with heq | ⟨h1, h2⟩
    · simp only [chatLoop, heq, ih]
    · simp only [isOtherErr, Bool.and_eq_true, Bool.not_eq_true', beq_iff_eq] at h1 h2
      obtain ⟨⟨k1, k2⟩, k3⟩ := h1
      obtain ⟨⟨m1, m2⟩, m3⟩ := h2
      have k2p : ¬ (u1 attempt).status = 429 := by simpa using k2
      have k3p : ¬ (u1 attempt).status = 402 := by simpa using k3
      have m2p : ¬ (u2 attempt).status = 429 := by simpa using m2
      have m3p : ¬ (u2 attempt).status = 402 := by simpa using m3
      simp [chatLoop, k1, k2p, k3p, m1, m2p, m3p]

/-- C10: whenever any fetched attempt of a proxy run - whatever mix of
    rate limits and the one quota downgrade preceded it - meets an
    upstream response whose status is neither OK nor 429 nor 402, the
    run terminates at that attempt with the fixed gateway-error response
    (status 500, body AI gateway error) and makes no further attempts;
    moreover two whole runs whose upstream responses agree except at
    attempts where both are such generic errors (differing upstream
    error status, headers and body text) are indistinguishable to the
    caller: the returned response and the entire observable trace
    coincide, so no upstream error detail flows into the response. The
    last conjunct spells out the all-429-prefix instances. -/
theorem gateway_error_uniform :
    (∀ u1 u2 : Nat → UpstreamResp,
      (∀ i, u1 i = u2 i ∨ (isOtherErr (u1 i) = true ∧ isOtherErr (u2 i) = true)) →
      chatRun u1 = chatRun u2) ∧
    (∀ u : Nat → UpstreamResp, ∀ i, i < (chatRun u).models.length →
      isOtherErr (u i) = true →
      (chatRun u).resp = gatewayError ∧ (chatRun u).models.length = i + 1) ∧
    (∀ u : Nat → UpstreamResp, ∀ i, i < maxRetries →
      (∀ j, j < i → (u j).status = 429) → isOtherErr (u i) = true →
      (chatRun u).resp = gatewayError) := by
  refine ⟨?_, ?_, ?_⟩
  · intro u1 u2 hrel
    exact chatLoop_other_congr u1 u2 hrel maxRetries 0 defaultModel false
  · intro u i hi hother
    exact chatLoop_other_terminal u maxRetries 0 defaultModel false i hi
      (by rw [Nat.zero_add]; exact hother)
  · intro u i hi hpre hother
    simp only [isOtherErr, Bool.and_eq_true, Bool.not_eq_true', beq_iff_eq] at hother
    obtain ⟨⟨k1, k2⟩, k3⟩ := hother
    have k2p : ¬ (u i).status = 429 := by simpa using k2
    have k3p : ¬ (u i).status = 402 := by simpa using k3
    unfold maxRetries at hi
    interval_cases i
    · unfold chatRun maxRetries
      simp [chatLoop, k1, k2p, k3p]
    · have s0 := hpre 0 (by omega)
      have o0 := isOk_false_of_429 _ s0
      unfold chatRun maxRetries
      simp [chatLoop, o0, s0, k1, k2p, k3p]
    · have s0 := hpre 0 (by omega)
      have s1 := hpre 1 (by omega)
      have o0 := isOk_false_of_429 _ s0
      have o1 := isOk_false_of_429 _ s1
      unfold chatRun maxRetries
      simp [chatLoop, o0, o1, s0, s1, k1, k2p, k3p]

theorem gateway_error_uniform_w :
    chatRun uErrA = chatRun uErrB ∧
    ((chatRun uQuotaThenErr).resp = gatewayError ∧
      (chatRun uQuotaThenErr).models.length = 2) ∧
    (chatRun uErrA).resp = gatewayError :=
  ⟨gateway_error_uniform.1 uErrA uErrB (fun i => Or.inr ⟨rfl, rfl⟩),
   gateway_error_uniform.2.1 uQuotaThenErr 1 (by decide) (by decide),
   gateway_error_uniform.2.2 uErrA 0 (by decide) (fun j hj => absurd hj (by omega)) (by decide)⟩
